import Mathlib

/-!
A shallow embedding of `src/sync_folders.py` (class `FileSync`), the one-way
folder mirroring program, together with theorems settling the specification
claims about it.

Representation choices, faithful to the source:

* All paths are plain strings kept relative to the process working directory,
  with the Windows separator (a single backslash) — the program's target
  platform, visible in its example usage and in its hard-coded backslash
  file-name join.  `os.path.relpath` with its default base is therefore the
  identity on this representation.
* The file system is a flat record: the list of existing directories (in
  `os.walk` order, parents before children) and the list of existing files,
  each file given by the directory containing it, its bare name, and its
  modification timestamp expressed as a natural number.  `os.walk` reports
  exactly these data, and `os.walk` of a root that does not exist yields
  nothing (its default `onerror=None` swallows the scandir error), which the
  flat filter-based walk below reproduces.
* Python exceptions are modelled by `Except`; an uncaught exception carries
  the file-system state and the log at the moment it is raised, matching the
  fact that mutations performed before an exception persist while the cycle
  is aborted.
* `datetime.fromtimestamp` is injective on the timestamps the model uses, so
  `_get_file_time` comparisons are modelled directly on the numeric
  `os.path.getmtime` values.
-/

/-- Auxiliary recursion of `pyReplace`: scan left to right, replacing each
leftmost, non-overlapping occurrence of `pat`.  The fuel argument is bounded
by the length of the scanned list; every step consumes at least one character
when `pat` is nonempty. -/
def pyReplaceAux (pat rep : List Char) : Nat → List Char → List Char
  | 0, s => s
  | _ + 1, [] => []
  | fuel + 1, c :: rest =>
    if pat.isPrefixOf (c :: rest) then
      rep ++ pyReplaceAux pat rep fuel ((c :: rest).drop pat.length)
    else
      c :: pyReplaceAux pat rep fuel rest

/-- Python `s.replace(pat, rep)` for a nonempty pattern: replace every
occurrence of `pat` in `s`, scanning left to right, non-overlapping. -/
def pyReplace (s pat rep : String) : String :=
  (pyReplaceAux pat.toList rep.toList s.toList.length s.toList).asString

/-- `p` is a directory inside the tree rooted at `root`: either the root
itself or a path strictly below it.  `os.walk root` visits exactly the
existing directories satisfying this. -/
def underRoot (root p : String) : Bool :=
  p == root || (root ++ "\\").toList.isPrefixOf p.toList

/-- Split a character list on the backslash separator, as the operating
system splits a Windows path into components. -/
def splitComps : List Char → List (List Char)
  | [] => [[]]
  | c :: rest =>
    match splitComps rest with
    | [] => [[]]
    | g :: gs => if c = '\\' then [] :: g :: gs else (c :: g) :: gs

/-- The directory part of a path: everything before the last separator. -/
def parentDir (p : String) : String :=
  String.intercalate "\\" (((splitComps p.toList).map List.asString).dropLast)

/-- The file-name part of a path: everything after the last separator. -/
def baseName (p : String) : String :=
  (((splitComps p.toList).map List.asString).getLast?).getD ""

/-- The file system as the operating-system calls used by `sync_folders.py`
see it: the existing directories, in `os.walk` order, and the existing files
as (containing directory, file name, modification timestamp). -/
structure FS where
  dirs : List String
  files : List (String × String × Nat)
deriving DecidableEq, Repr

/-- The Python exceptions the program can encounter: `FileNotFoundError`
(caught by `_check_item_deletion`, uncaught elsewhere) and
`FileExistsError` (raised by `os.makedirs` without `exist_ok`, never
caught). -/
inductive PyErr where
  | fileNotFound
  | fileExists
deriving DecidableEq, Repr

/-- The full path of a file record: its directory joined to its name with
the separator, which is how every OS call in the program addresses it. -/
def filePathOf (f : String × String × Nat) : String :=
  f.1 ++ "\\" ++ f.2.1

/-- `os.path.getmtime p` (the numeric content of `_get_file_time`): the
modification timestamp of the file at `p`, or `FileNotFoundError`. -/
def getmtime (fs : FS) (p : String) : Except PyErr Nat :=
  match fs.files.find? (fun f => filePathOf f == p) with
  | some f => .ok f.2.2
  | none => .error .fileNotFound

/-- All nonempty component-prefixes of a component list, joined back into
paths: the chain of directories `os.makedirs` ensures. -/
def joinedPrefixes : List String → List String
  | [] => []
  | c :: rest => c :: (joinedPrefixes rest).map (fun q => c ++ "\\" ++ q)

/-- `os.makedirs p` with the default `exist_ok=False`: raises
`FileExistsError` when `p` already exists, otherwise creates `p` together
with every missing intermediate directory. -/
def makedirs (fs : FS) (p : String) : Except PyErr FS :=
  if p ∈ fs.dirs then .error .fileExists
  else .ok { fs with
    dirs := fs.dirs ++
      (joinedPrefixes ((splitComps p.toList).map List.asString)).filter
        (fun q => q ∉ fs.dirs) }

/-- `shutil.rmtree p`: recursively remove the directory `p` and everything
beneath it; `FileNotFoundError` when `p` does not exist. -/
def rmtree (fs : FS) (p : String) : Except PyErr FS :=
  if p ∈ fs.dirs then
    .ok ⟨fs.dirs.filter (fun d => ! underRoot p d),
         fs.files.filter (fun f => ! underRoot p f.1)⟩
  else .error .fileNotFound

/-- `os.remove p`: remove the file at `p`; `FileNotFoundError` when absent. -/
def removeFile (fs : FS) (p : String) : Except PyErr FS :=
  if fs.files.any (fun f => filePathOf f == p) then
    .ok { fs with files := fs.files.filter (fun f => ! (filePathOf f == p)) }
  else .error .fileNotFound

/-- `shutil.copy2 src dst`: copy the file with its metadata, so the copy
keeps the source's modification timestamp; creates or overwrites `dst`;
fails when `src` is missing or the directory of `dst` does not exist. -/
def copy2 (fs : FS) (src dst : String) : Except PyErr FS :=
  match getmtime fs src with
  | .error e => .error e
  | .ok t =>
    if parentDir dst ∈ fs.dirs then
      .ok { fs with files :=
        fs.files.filter (fun f => ! (filePathOf f == dst)) ++
          [(parentDir dst, baseName dst, t)] }
    else .error .fileNotFound

/-- `os.path.relpath` with its default base, the working directory.  The
model keeps every path relative to the working directory already, so on this
representation the function is the identity; it is NOT relative to the tree
root being walked — the walked root's own name stays as a prefix of every
result, which is what the program's substring rebasing relies on. -/
def relpath (p : String) : String := p

/-- The files `os.walk` reports directly inside `dirpath`. -/
def filesInDir (fs : FS) (dirpath : String) : List (String × String × Nat) :=
  fs.files.filter (fun f => f.1 == dirpath)

/-- Lines 60-62 of `sync_files`: `self.src_folders`, one entry
`os.path.relpath(dirpath)` per walked source directory. -/
def src_folders (fs : FS) (srcPath : String) : List String :=
  (fs.dirs.filter (underRoot srcPath)).map relpath

/-- Lines 63-67 of `sync_files`: `self.src_files`, one entry
`os.path.relpath(dirpath + backslash + file_name)` per walked source file
(the f-string join hard-codes the backslash). -/
def src_files (fs : FS) (srcPath : String) : List String :=
  (fs.dirs.filter (underRoot srcPath)).flatMap
    (fun dirpath =>
      (filesInDir fs dirpath).map (fun f => relpath (dirpath ++ "\\" ++ f.2.1)))

/-- Lines 70-71 of `sync_files`: `self.rep_folders`, the walked replica
directories with every occurrence of the substring "replica" replaced by
"source". -/
def rep_folders (fs : FS) (repPath : String) : List String :=
  (fs.dirs.filter (underRoot repPath)).map
    (fun dirpath => pyReplace (relpath dirpath) "replica" "source")

/-- Lines 72-77 of `sync_files`: `self.rep_files`, the walked replica files,
backslash-joined, with every occurrence of the substring "replica" replaced
by "source". -/
def rep_files (fs : FS) (repPath : String) : List String :=
  (fs.dirs.filter (underRoot repPath)).flatMap
    (fun dirpath =>
      (filesInDir fs dirpath).map
        (fun f => pyReplace (relpath (dirpath ++ "\\" ++ f.2.1)) "replica" "source"))

/-- One `log_action` record: the action label and the two paths passed to
it.  The wall-clock timestamp prefix of the written line carries no
reconciliation information and is not modelled. -/
structure LogEntry where
  action : String
  src : String
  rep : String
deriving DecidableEq, Repr

/-- An uncaught exception, with the file system and log as already mutated
when it is raised. -/
abbrev SyncErr := PyErr × FS × List LogEntry

/-- Result of a phase or of a whole cycle: the mutated file system and the
log entries written so far, or an uncaught exception. -/
abbrev SyncM := Except SyncErr (FS × List LogEntry)

/-- First loop of `_check_item_deletion`: for each enumerated replica folder
absent from the source enumeration, `shutil.rmtree` its substring-rebased
replica path; only the `FileNotFoundError` branch logs "Deleted". -/
def delFoldersLoop (sFolders : List String) : List String → FS → List LogEntry → SyncM
  | [], fs, log => .ok (fs, log)
  | folder :: rest, fs, log =>
    if folder ∈ sFolders then delFoldersLoop sFolders rest fs log
    else
      match rmtree fs (pyReplace folder "source" "replica") with
      | .ok fs' => delFoldersLoop sFolders rest fs' log
      | .error .fileNotFound =>
          delFoldersLoop sFolders rest fs
            (log ++ [⟨"Deleted", folder, pyReplace folder "source" "replica"⟩])
      | .error .fileExists => .error (.fileExists, fs, log)

/-- Second loop of `_check_item_deletion`: the same for files, with
`os.remove`. -/
def delFilesLoop (sFiles : List String) : List String → FS → List LogEntry → SyncM
  | [], fs, log => .ok (fs, log)
  | filePath :: rest, fs, log =>
    if filePath ∈ sFiles then delFilesLoop sFiles rest fs log
    else
      match removeFile fs (pyReplace filePath "source" "replica") with
      | .ok fs' => delFilesLoop sFiles rest fs' log
      | .error .fileNotFound =>
          delFilesLoop sFiles rest fs
            (log ++ [⟨"Deleted", filePath, pyReplace filePath "source" "replica"⟩])
      | .error .fileExists => .error (.fileExists, fs, log)

/-- First loop of `_check_item_creation`: for each enumerated source folder
absent from the rebased replica enumeration, `os.makedirs` its rebased path
and log "Created"; an exception propagates uncaught. -/
def createFoldersLoop (rFolders : List String) : List String → FS → List LogEntry → SyncM
  | [], fs, log => .ok (fs, log)
  | folder :: rest, fs, log =>
    if folder ∈ rFolders then createFoldersLoop rFolders rest fs log
    else
      match makedirs fs (pyReplace folder "source" "replica") with
      | .ok fs' =>
          createFoldersLoop rFolders rest fs'
            (log ++ [⟨"Created", folder, pyReplace folder "source" "replica"⟩])
      | .error e => .error (e, fs, log)

/-- Second loop of `_check_item_creation`: the same for files, with
`shutil.copy2`. -/
def createFilesLoop (rFiles : List String) : List String → FS → List LogEntry → SyncM
  | [], fs, log => .ok (fs, log)
  | filePath :: rest, fs, log =>
    if filePath ∈ rFiles then createFilesLoop rFiles rest fs log
    else
      match copy2 fs filePath (pyReplace filePath "source" "replica") with
      | .ok fs' =>
          createFilesLoop rFiles rest fs'
            (log ++ [⟨"Created", filePath, pyReplace filePath "source" "replica"⟩])
      | .error e => .error (e, fs, log)

/-- The loop of `_check_item_modification`: walk the two stale file lists
zipped POSITIONALLY, compare the two timestamps, and on inequality
`shutil.copy2` the source file onto the pair's rebased replica path, logging
"Modified"; `_get_file_time` on a missing file or a failing copy raises
uncaught. -/
def modifyLoop : List (String × String) → FS → List LogEntry → SyncM
  | [], fs, log => .ok (fs, log)
  | (srcFile, repFile) :: rest, fs, log =>
    match getmtime fs srcFile with
    | .error e => .error (e, fs, log)
    | .ok t1 =>
      match getmtime fs (pyReplace repFile "source" "replica") with
      | .error e => .error (e, fs, log)
      | .ok t2 =>
        if t1 ≠ t2 then
          match copy2 fs srcFile (pyReplace repFile "source" "replica") with
          | .ok fs' =>
              modifyLoop rest fs'
                (log ++ [⟨"Modified", srcFile, pyReplace repFile "source" "replica"⟩])
          | .error e => .error (e, fs, log)
        else modifyLoop rest fs log

/-- `FileSync._check_item_deletion`: replica folders first, then replica
files. -/
def check_item_deletion (sFolders sFiles rFolders rFiles : List String)
    (fs : FS) (log : List LogEntry) : SyncM :=
  match delFoldersLoop sFolders rFolders fs log with
  | .error e => .error e
  | .ok (fs1, log1) => delFilesLoop sFiles rFiles fs1 log1

/-- `FileSync._check_item_creation`: source folders first ("file creation
cannot be made when no dir exists"), then source files. -/
def check_item_creation (sFolders sFiles rFolders rFiles : List String)
    (fs : FS) (log : List LogEntry) : SyncM :=
  match createFoldersLoop rFolders sFolders fs log with
  | .error e => .error e
  | .ok (fs1, log1) => createFilesLoop rFiles sFiles fs1 log1

/-- `FileSync._check_item_modification`: the positional zip of the two
enumerated file lists. -/
def check_item_modification (sFiles rFiles : List String)
    (fs : FS) (log : List LogEntry) : SyncM :=
  modifyLoop (sFiles.zip rFiles) fs log

/-- `FileSync.sync_files`: enumerate both trees once into the four lists,
then run deletion, creation and modification in that order, threading the
file system and the log through. -/
def sync_files (fs0 : FS) (srcPath repPath : String) : SyncM :=
  let sFolders := src_folders fs0 srcPath
  let sFiles := src_files fs0 srcPath
  let rFolders := rep_folders fs0 repPath
  let rFiles := rep_files fs0 repPath
  match check_item_deletion sFolders sFiles rFolders rFiles fs0 [] with
  | .error e => .error e
  | .ok (fs1, log1) =>
    match check_item_creation sFolders sFiles rFolders rFiles fs1 log1 with
    | .error e => .error e
    | .ok (fs2, log2) => check_item_modification sFiles rFiles fs2 log2

/-- A state with source files `a` (timestamp 1) and `b` (timestamp 2) and a
replica already holding `b` (timestamp 2): a single fresh source file next
to an already-synchronized one. -/
def fsA : FS :=
  ⟨["source", "replica"],
   [("source", "a", 1), ("source", "b", 2), ("replica", "b", 2)]⟩

/-- The file system `sync_files` leaves behind on `fsA`. -/
def fsA_after : FS :=
  ⟨["source", "replica"],
   [("source", "a", 1), ("source", "b", 2), ("replica", "a", 1), ("replica", "b", 1)]⟩

/-- The log `sync_files` writes on `fsA`. -/
def fsA_log : List LogEntry :=
  [⟨"Created", "source\\a", "replica\\a"⟩,
   ⟨"Modified", "source\\a", "replica\\b"⟩]

/-- A state whose replica holds a directory `d` that the source does not
have: one genuine directory deletion is due. -/
def fsB : FS := ⟨["source", "replica", "replica\\d"], []⟩

/-- The file system `sync_files` leaves behind on `fsB`. -/
def fsB_after : FS := ⟨["source", "replica"], []⟩

/-- A state in which the source root `source` does not exist at all, while
the replica holds a subdirectory and a file. -/
def fsC : FS := ⟨["replica", "replica\\d"], [("replica", "f", 5)]⟩

/-- The file system `sync_files` leaves behind on `fsC`: everything gone,
including the replica root itself. -/
def fsC_after : FS := ⟨[], []⟩

/-- The log `sync_files` writes on `fsC`: only the two already-absent
deletions that trail the recursive removal of the replica root. -/
def fsC_log : List LogEntry :=
  [⟨"Deleted", "source\\d", "replica\\d"⟩,
   ⟨"Deleted", "source\\f", "replica\\f"⟩]

/-- A state where the source holds subdirectories literally named `replica`
and `source`, and the replica holds a subdirectory literally named
`replica`: the rebased creation target of `source\replica` is the already
existing directory `replica\replica`. -/
def fsD : FS :=
  ⟨["source", "source\\replica", "source\\source", "replica", "replica\\replica"], []⟩

/-- `fsD` extended with one more pending source directory `source\z`, whose
creation is still due when the cycle dies. -/
def fsE : FS :=
  ⟨["source", "source\\replica", "source\\source", "source\\z", "replica", "replica\\replica"],
   []⟩

/-- A replica tree containing a subdirectory literally named `replica`. -/
def fsF : FS := ⟨["replica", "replica\\replica"], []⟩

/-- A source tree with one subdirectory `a` holding one file `f`. -/
def fsG : FS := ⟨["source", "source\\a"], [("source\\a", "f", 7)]⟩

/-- C1.  The convergence claim fails on the code: on `fsA` the cycle
succeeds, yet afterwards the replica's copy of `b` carries timestamp 1
while the source's `b` carries timestamp 2 — the positional zip of
`_check_item_modification` pairs source `a` with replica `b` and re-copies
`a` over the replica's `b`.  The replica enumeration after the cycle does
not equal the source enumeration. -/
theorem sync_breaks_convergence_on_misaligned_pairs :
    sync_files fsA "source" "replica" = .ok (fsA_after, fsA_log) ∧
    getmtime fsA "source\\b" = .ok 2 ∧
    getmtime fsA_after "source\\b" = .ok 2 ∧
    getmtime fsA_after "replica\\b" = .ok 1 :=
  ⟨rfl, rfl, rfl, rfl⟩

/-- C2.  Path rebasing is substring replacement, not relative-path
composition: the replica directory `replica\replica` (a subdirectory
literally named like the root) is enumerated as `source\source`, although
its rebase into the source namespace is `source\replica`, which never
appears. -/
theorem rebasing_replaces_inner_root_name :
    rep_folders fsF "replica" = ["source", "source\\source"] ∧
    "source\\replica" ∉ rep_folders fsF "replica" :=
  ⟨rfl, by decide⟩

/-- C3 counterexample.  Enumerated paths are not relative to the walked
root: walking the root `source` records the directory `a` as `source\a`
and the file `a\f` as `source\a\f` — each path keeps the root's own
working-directory-relative path as a prefix, and the root-relative forms
never appear. -/
theorem enumeration_paths_carry_root_prefix :
    src_folders fsG "source" = ["source", "source\\a"] ∧
    "a" ∉ src_folders fsG "source" ∧
    src_files fsG "source" = ["source\\a\\f"] ∧
    "a\\f" ∉ src_files fsG "source" :=
  ⟨rfl, by decide, rfl, by decide⟩

/-- C4.  Modification is paired positionally, not by equal relative path:
on `fsA` the only common relative path is `b`, whose two timestamps are
equal (both 2), so the claimed ModifyFile set is empty — yet the cycle logs
a `Modified` action pairing source `a` with replica `b`. -/
theorem modified_pairs_distinct_relative_paths :
    sync_files fsA "source" "replica" = .ok (fsA_after, fsA_log) ∧
    LogEntry.mk "Modified" "source\\a" "replica\\b" ∈ fsA_log ∧
    getmtime fsA "source\\b" = .ok 2 ∧
    getmtime fsA "replica\\b" = .ok 2 :=
  ⟨rfl, by decide, rfl, rfl⟩

/-- C5.  A successfully applied deletion is not reported: on `fsB` the
replica directory `replica\d` is removed by `shutil.rmtree`, the cycle
succeeds, and the log is empty — `_check_item_deletion` logs "Deleted"
only in its `FileNotFoundError` branch, never for a deletion that actually
deleted something. -/
theorem successful_deletion_not_logged :
    "replica\\d" ∈ fsB.dirs ∧
    sync_files fsB "source" "replica" = .ok (fsB_after, []) ∧
    "replica\\d" ∉ fsB_after.dirs :=
  ⟨by decide, rfl, by decide⟩

/-- C6.  A missing source root is not an error: on `fsC` (no `source`
directory exists) `os.walk` silently yields nothing, the cycle completes
with `.ok`, and the deletion pass removes the entire replica tree —
the enumeration failure is swallowed and the cycle proceeds exactly as if
the source tree were empty. -/
theorem missing_source_root_wipes_replica_without_error :
    "source" ∉ fsC.dirs ∧
    sync_files fsC "source" "replica" = .ok (fsC_after, fsC_log) ∧
    fsC_after.dirs = [] ∧
    fsC_after.files = [] :=
  ⟨by decide, rfl, rfl, rfl⟩

/-- C7 counterexample.  Directory creation is not idempotent: on `fsD` the
pending source directory `source\replica` rebases (by substring
replacement) to the already existing replica directory `replica\replica`,
and `os.makedirs` raises `FileExistsError` instead of treating the
existing target as success — the whole cycle aborts with the error. -/
theorem createdir_errors_when_target_exists :
    pyReplace "source\\replica" "source" "replica" = "replica\\replica" ∧
    "replica\\replica" ∈ fsD.dirs ∧
    "source\\replica" ∈ src_folders fsD "source" ∧
    "source\\replica" ∉ rep_folders fsD "replica" ∧
    sync_files fsD "source" "replica" = .error (.fileExists, fsD, []) :=
  ⟨rfl, by decide, by decide, by decide, rfl⟩

/-- C8 counterexample.  An mkdir failure aborts the whole cycle: on `fsE`
the failing `os.makedirs` call makes `sync_files` return the uncaught
exception with an empty log — the failure is not logged as a failed
action — and the still-pending creation of `replica\z` (due for the source
directory `source\z`) is never processed. -/
theorem mkdir_failure_aborts_cycle_unlogged :
    sync_files fsE "source" "replica" = .error (.fileExists, fsE, []) ∧
    "source\\z" ∈ src_folders fsE "source" ∧
    "source\\z" ∉ rep_folders fsE "replica" ∧
    "replica\\z" ∉ fsE.dirs :=
  ⟨rfl, by decide, by decide, by decide⟩

/-- Membership in the enumerated source folder list: exactly the existing
directories lying under the walked root, recorded verbatim (working-
directory-relative, root prefix included). -/
theorem mem_src_folders {fs : FS} {root d : String} :
    d ∈ src_folders fs root ↔ d ∈ fs.dirs ∧ underRoot root d = true := by
  simp [src_folders, relpath, List.mem_filter]

/-- Membership in the enumerated source file list: exactly the existing
files whose containing directory lies under the walked root, recorded as
the directory joined to the name with the hard-coded backslash. -/
theorem mem_src_files {fs : FS} {root p : String} :
    p ∈ src_files fs root ↔
      ∃ d n t, (d, n, t) ∈ fs.files ∧ d ∈ fs.dirs ∧ underRoot root d = true ∧
        p = d ++ "\\" ++ n := by
  simp only [src_files, filesInDir, relpath, List.mem_flatMap, List.mem_filter,
    List.mem_map, beq_iff_eq]
  constructor
  · rintro ⟨d, ⟨hd, hu⟩, ⟨d', n, t⟩, ⟨hf, rfl⟩, rfl⟩
    exact ⟨d', n, t, hf, hd, hu, rfl⟩
  · rintro ⟨d, n, t, hf, hd, hu, rfl⟩
    exact ⟨d, ⟨hd, hu⟩, ⟨d, n, t⟩, ⟨hf, rfl⟩, rfl⟩

/-- Membership in the enumerated replica folder list: the directories under
the walked root, each with every occurrence of the substring "replica"
replaced by "source". -/
theorem mem_rep_folders {fs : FS} {root q : String} :
    q ∈ rep_folders fs root ↔
      ∃ d, d ∈ fs.dirs ∧ underRoot root d = true ∧
        q = pyReplace d "replica" "source" := by
  simp only [rep_folders, relpath, List.mem_map, List.mem_filter]
  constructor
  · rintro ⟨d, ⟨hd, hu⟩, rfl⟩
    exact ⟨d, hd, hu, rfl⟩
  · rintro ⟨d, hd, hu, rfl⟩
    exact ⟨d, ⟨hd, hu⟩, rfl⟩

/-- Membership in the enumerated replica file list: the backslash-joined
file paths under the walked root, each with every occurrence of the
substring "replica" replaced by "source". -/
theorem mem_rep_files {fs : FS} {root p : String} :
    p ∈ rep_files fs root ↔
      ∃ d n t, (d, n, t) ∈ fs.files ∧ d ∈ fs.dirs ∧ underRoot root d = true ∧
        p = pyReplace (d ++ "\\" ++ n) "replica" "source" := by
  simp only [rep_files, filesInDir, relpath, List.mem_flatMap, List.mem_filter,
    List.mem_map, beq_iff_eq]
  constructor
  · rintro ⟨d, ⟨hd, hu⟩, ⟨d', n, t⟩, ⟨hf, rfl⟩, rfl⟩
    exact ⟨d', n, t, hf, hd, hu, rfl⟩
  · rintro ⟨d, n, t, hf, hd, hu, rfl⟩
    exact ⟨d, ⟨hd, hu⟩, ⟨d, n, t⟩, ⟨hf, rfl⟩, rfl⟩

/-- A successful run of the folder-deletion loop appends only "Deleted"
entries to the log. -/
theorem delFoldersLoop_log (sf : List String) :
    ∀ (l : List String) (fs : FS) (log : List LogEntry) (fs' : FS) (log' : List LogEntry),
      delFoldersLoop sf l fs log = .ok (fs', log') →
      ∃ dl, log' = log ++ dl ∧ ∀ e ∈ dl, e.action = "Deleted" := by
  intro l
  induction l with
  | nil =>
    intro fs log fs' log' h
    simp only [delFoldersLoop, Except.ok.injEq, Prod.mk.injEq] at h
    exact ⟨[], by simp [h.2], by simp⟩
  | cons folder rest ih =>
    intro fs log fs' log' h
    simp only [delFoldersLoop] at h
    split at h
    · exact ih fs log fs' log' h
    · split at h
      · exact ih _ log fs' log' h
      · obtain ⟨dl, hdl, hall⟩ := ih _ _ fs' log' h
        refine ⟨⟨"Deleted", folder, pyReplace folder "source" "replica"⟩ :: dl, ?_, ?_⟩
        · simp [hdl]
        · intro e he
          rcases List.mem_cons.1 he with he | he
          · simp [he]
          · exact hall e he
      · exact Except.noConfusion h

/-- A successful run of the file-deletion loop appends only "Deleted"
entries to the log. -/
theorem delFilesLoop_log (sf : List String) :
    ∀ (l : List String) (fs : FS) (log : List LogEntry) (fs' : FS) (log' : List LogEntry),
      delFilesLoop sf l fs log = .ok (fs', log') →
      ∃ dl, log' = log ++ dl ∧ ∀ e ∈ dl, e.action = "Deleted" := by
  intro l
  induction l with
  | nil =>
    intro fs log fs' log' h
    simp only [delFilesLoop, Except.ok.injEq, Prod.mk.injEq] at h
    exact ⟨[], by simp [h.2], by simp⟩
  | cons filePath rest ih =>
    intro fs log fs' log' h
    simp only [delFilesLoop] at h
    split at h
    · exact ih fs log fs' log' h
    · split at h
      · exact ih _ log fs' log' h
      · obtain ⟨dl, hdl, hall⟩ := ih _ _ fs' log' h
        refine ⟨⟨"Deleted", filePath, pyReplace filePath "source" "replica"⟩ :: dl, ?_, ?_⟩
        · simp [hdl]
        · intro e he
          rcases List.mem_cons.1 he with he | he
          · simp [he]
          · exact hall e he
      · exact Except.noConfusion h

/-- A successful run of the folder-creation loop appends only "Created"
entries, each for a folder of the iterated source-folder list. -/
theorem createFoldersLoop_log (rf : List String) :
    ∀ (l : List String) (fs : FS) (log : List LogEntry) (fs' : FS) (log' : List LogEntry),
      createFoldersLoop rf l fs log = .ok (fs', log') →
      ∃ dl, log' = log ++ dl ∧ ∀ e ∈ dl, e.action = "Created" ∧ e.src ∈ l := by
  intro l
  induction l with
  | nil =>
    intro fs log fs' log' h
    simp only [createFoldersLoop, Except.ok.injEq, Prod.mk.injEq] at h
    exact ⟨[], by simp [h.2], by simp⟩
  | cons folder rest ih =>
    intro fs log fs' log' h
    simp only [createFoldersLoop] at h
    split at h
    · obtain ⟨dl, hdl, hall⟩ := ih fs log fs' log' h
      exact ⟨dl, hdl, fun e he => ⟨(hall e he).1, List.mem_cons_of_mem _ (hall e he).2⟩⟩
    · split at h
      · obtain ⟨dl, hdl, hall⟩ := ih _ _ fs' log' h
        refine ⟨⟨"Created", folder, pyReplace folder "source" "replica"⟩ :: dl, ?_, ?_⟩
        · simp [hdl]
        · intro e he
          rcases List.mem_cons.1 he with he | he
          · simp [he]
          · exact ⟨(hall e he).1, List.mem_cons_of_mem _ (hall e he).2⟩
      · exact Except.noConfusion h

/-- A successful run of the file-creation loop appends only "Created"
entries, each for a file of the iterated source-file list. -/
theorem createFilesLoop_log (rf : List String) :
    ∀ (l : List String) (fs : FS) (log : List LogEntry) (fs' : FS) (log' : List LogEntry),
      createFilesLoop rf l fs log = .ok (fs', log') →
      ∃ dl, log' = log ++ dl ∧ ∀ e ∈ dl, e.action = "Created" ∧ e.src ∈ l := by
  intro l
  induction l with
  | nil =>
    intro fs log fs' log' h
    simp only [createFilesLoop, Except.ok.injEq, Prod.mk.injEq] at h
    exact ⟨[], by simp [h.2], by simp⟩
  | cons filePath rest ih =>
    intro fs log fs' log' h
    simp only [createFilesLoop] at h
    split at h
    · obtain ⟨dl, hdl, hall⟩ := ih fs log fs' log' h
      exact ⟨dl, hdl, fun e he => ⟨(hall e he).1, List.mem_cons_of_mem _ (hall e he).2⟩⟩
    · split at h
      · obtain ⟨dl, hdl, hall⟩ := ih _ _ fs' log' h
        refine ⟨⟨"Created", filePath, pyReplace filePath "source" "replica"⟩ :: dl, ?_, ?_⟩
        · simp [hdl]
        · intro e he
          rcases List.mem_cons.1 he with he | he
          · simp [he]
          · exact ⟨(hall e he).1, List.mem_cons_of_mem _ (hall e he).2⟩
      · exact Except.noConfusion h

/-- A successful run of the modification loop appends only "Modified"
entries to the log. -/
theorem modifyLoop_log :
    ∀ (l : List (String × String)) (fs : FS) (log : List LogEntry) (fs' : FS) (log' : List LogEntry),
      modifyLoop l fs log = .ok (fs', log') →
      ∃ dl, log' = log ++ dl ∧ ∀ e ∈ dl, e.action = "Modified" := by
  intro l
  induction l with
  | nil =>
    intro fs log fs' log' h
    simp only [modifyLoop, Except.ok.injEq, Prod.mk.injEq] at h
    exact ⟨[], by simp [h.2], by simp⟩
  | cons pair rest ih =>
    obtain ⟨srcFile, repFile⟩ := pair
    intro fs log fs' log' h
    simp only [modifyLoop] at h
    split at h
    · exact Except.noConfusion h
    · split at h
      · exact Except.noConfusion h
      · split at h
        · split at h
          · obtain ⟨dl, hdl, hall⟩ := ih _ _ fs' log' h
            refine ⟨⟨"Modified", srcFile, pyReplace repFile "source" "replica"⟩ :: dl, ?_, ?_⟩
            · simp [hdl]
            · intro e he
              rcases List.mem_cons.1 he with he | he
              · simp [he]
              · exact hall e he
          · exact Except.noConfusion h
        · exact ih fs log fs' log' h

/-- A successful deletion pass appends only "Deleted" entries. -/
theorem check_item_deletion_log (sFolders sFiles rFolders rFiles : List String)
    (fs : FS) (log : List LogEntry) (fs' : FS) (log' : List LogEntry)
    (h : check_item_deletion sFolders sFiles rFolders rFiles fs log = .ok (fs', log')) :
    ∃ dl, log' = log ++ dl ∧ ∀ e ∈ dl, e.action = "Deleted" := by
  simp only [check_item_deletion] at h
  rcases heq : delFoldersLoop sFolders rFolders fs log with e | ⟨fs1, log1⟩
  · rw [heq] at h
    exact Except.noConfusion h
  · rw [heq] at h
    obtain ⟨d1, hd1, hall1⟩ := delFoldersLoop_log sFolders rFolders fs log fs1 log1 heq
    obtain ⟨d2, hd2, hall2⟩ := delFilesLoop_log sFiles rFiles fs1 log1 fs' log' h
    refine ⟨d1 ++ d2, by simp [hd2, hd1], ?_⟩
    intro e he
    rcases List.mem_append.1 he with he | he
    · exact hall1 e he
    · exact hall2 e he

/-- A successful creation pass appends first "Created" entries for source
folders, then "Created" entries for source files, in that order. -/
theorem check_item_creation_log (sFolders sFiles rFolders rFiles : List String)
    (fs : FS) (log : List LogEntry) (fs' : FS) (log' : List LogEntry)
    (h : check_item_creation sFolders sFiles rFolders rFiles fs log = .ok (fs', log')) :
    ∃ d1 d2, log' = log ++ d1 ++ d2 ∧
      (∀ e ∈ d1, e.action = "Created" ∧ e.src ∈ sFolders) ∧
      (∀ e ∈ d2, e.action = "Created" ∧ e.src ∈ sFiles) := by
  simp only [check_item_creation] at h
  rcases heq : createFoldersLoop rFolders sFolders fs log with e | ⟨fs1, log1⟩
  · rw [heq] at h
    exact Except.noConfusion h
  · rw [heq] at h
    obtain ⟨d1, hd1, hall1⟩ := createFoldersLoop_log rFolders sFolders fs log fs1 log1 heq
    obtain ⟨d2, hd2, hall2⟩ := createFilesLoop_log rFiles sFiles fs1 log1 fs' log' h
    exact ⟨d1, d2, by simp [hd2, hd1], hall1, hall2⟩

/-- C9.  Within a cycle the actions are applied — and logged — in phase
order: the log of every successful cycle decomposes into all deletion
entries, then all directory-creation entries (their sources drawn from the
source folder enumeration), then all file-creation entries (sources drawn
from the source file enumeration), then all modification entries.
`sync_files` runs the deletion pass, the creation pass (folders before
files, so no file creation ever precedes the creation of its directory),
and the modification pass in this fixed order. -/
theorem actions_applied_in_phase_order :
    ∀ (fs0 : FS) (srcPath repPath : String) (fs' : FS) (L : List LogEntry),
      sync_files fs0 srcPath repPath = .ok (fs', L) →
      ∃ ldel lcdir lcfile lmod,
        L = ldel ++ lcdir ++ lcfile ++ lmod ∧
        (∀ e ∈ ldel, e.action = "Deleted") ∧
        (∀ e ∈ lcdir, e.action = "Created" ∧ e.src ∈ src_folders fs0 srcPath) ∧
        (∀ e ∈ lcfile, e.action = "Created" ∧ e.src ∈ src_files fs0 srcPath) ∧
        (∀ e ∈ lmod, e.action = "Modified") := by
  intro fs0 s r fs' L h
  simp only [sync_files] at h
  rcases heq1 : check_item_deletion (src_folders fs0 s) (src_files fs0 s)
      (rep_folders fs0 r) (rep_files fs0 r) fs0 [] with e | ⟨fs1, log1⟩
  · rw [heq1] at h
    exact Except.noConfusion h
  · rw [heq1] at h
    dsimp only at h
    rcases heq2 : check_item_creation (src_folders fs0 s) (src_files fs0 s)
        (rep_folders fs0 r) (rep_files fs0 r) fs1 log1 with e | ⟨fs2, log2⟩
    · rw [heq2] at h
      exact Except.noConfusion h
    · rw [heq2] at h
      obtain ⟨dl, hdl, halldel⟩ :=
        check_item_deletion_log _ _ _ _ fs0 [] fs1 log1 heq1
      obtain ⟨d1, d2, hd12, hall1, hall2⟩ :=
        check_item_creation_log _ _ _ _ fs1 log1 fs2 log2 heq2
      obtain ⟨dm, hdm, hallm⟩ :=
        modifyLoop_log _ fs2 log2 fs' L h
      refine ⟨dl, d1, d2, dm, ?_, halldel, hall1, hall2, hallm⟩
      simp [hdm, hd12, hdl]

/-- Witness for C9: the phase decomposition holds for the concrete
successful cycle on `fsA`. -/
theorem actions_applied_in_phase_order_w :
    ∃ ldel lcdir lcfile lmod,
      fsA_log = ldel ++ lcdir ++ lcfile ++ lmod ∧
      (∀ e ∈ ldel, e.action = "Deleted") ∧
      (∀ e ∈ lcdir, e.action = "Created" ∧ e.src ∈ src_folders fsA "source") ∧
      (∀ e ∈ lcfile, e.action = "Created" ∧ e.src ∈ src_files fsA "source") ∧
      (∀ e ∈ lmod, e.action = "Modified") :=
  actions_applied_in_phase_order fsA "source" "replica" fsA_after fsA_log rfl

/-- C7 amended.  `os.makedirs` as the program invokes it: when the target
directory already exists it raises `FileExistsError` (no idempotent
success), and when the target is absent it succeeds, leaves every existing
directory in place and creates the target together with every missing
intermediate directory (already-existing intermediates are tolerated). -/
theorem makedirs_creates_missing_else_errors :
    ∀ (fs : FS) (p : String),
      (p ∈ fs.dirs → makedirs fs p = .error .fileExists) ∧
      (p ∉ fs.dirs → ∃ fs', makedirs fs p = .ok fs' ∧ fs'.files = fs.files ∧
        fs.dirs ⊆ fs'.dirs ∧
        ∀ q ∈ joinedPrefixes ((splitComps p.toList).map List.asString), q ∈ fs'.dirs) := by
  intro fs p
  constructor
  · intro h
    simp [makedirs, h]
  · intro h
    refine ⟨⟨fs.dirs ++
        (joinedPrefixes ((splitComps p.toList).map List.asString)).filter
          (fun q => q ∉ fs.dirs), fs.files⟩, by simp [makedirs, h], rfl, ?_, ?_⟩
    · intro q hq
      exact List.mem_append_left _ hq
    · intro q hq
      by_cases hqd : q ∈ fs.dirs
      · exact List.mem_append_left _ hqd
      · exact List.mem_append_right _ (List.mem_filter.2 ⟨hq, by simpa using hqd⟩)

/-- Witness for the amended C7: a concrete existing target errors and a
concrete absent target is created with its prefix chain. -/
theorem makedirs_creates_missing_else_errors_w :
    (makedirs ⟨["replica"], []⟩ "replica" = .error .fileExists) ∧
    (∃ fs', makedirs ⟨["replica"], []⟩ "replica\\a" = .ok fs' ∧
      fs'.files = [] ∧ (["replica"] : List String) ⊆ fs'.dirs ∧
      ∀ q ∈ joinedPrefixes ((splitComps ("replica\\a").toList).map List.asString),
        q ∈ fs'.dirs) :=
  ⟨(makedirs_creates_missing_else_errors ⟨["replica"], []⟩ "replica").1 (by decide),
   (makedirs_creates_missing_else_errors ⟨["replica"], []⟩ "replica\\a").2 (by decide)⟩

/-- C8 amended.  A failing `os.makedirs` or `shutil.copy2` on an
individual item makes the enclosing creation loop return the uncaught
exception immediately: the state and log are exactly those at the moment
of the failure — no failed-action entry is appended — and the remaining
items of the loop are never processed. -/
theorem item_failure_propagates_and_halts :
    ∀ (guardList : List String) (item : String) (rest : List String) (fs : FS)
      (log : List LogEntry) (e : PyErr),
      (item ∉ guardList →
        makedirs fs (pyReplace item "source" "replica") = .error e →
        createFoldersLoop guardList (item :: rest) fs log = .error (e, fs, log)) ∧
      (item ∉ guardList →
        copy2 fs item (pyReplace item "source" "replica") = .error e →
        createFilesLoop guardList (item :: rest) fs log = .error (e, fs, log)) := by
  intro gl item rest fs log e
  constructor
  · intro hg hm
    simp [createFoldersLoop, hg, hm]
  · intro hg hm
    simp [createFilesLoop, hg, hm]

/-- Witness for the amended C8: a concrete mkdir failure and a concrete
copy failure each abort their loop with the state at the failure. -/
theorem item_failure_propagates_and_halts_w :
    (createFoldersLoop [] ["source\\replica"] fsD [] = .error (.fileExists, fsD, [])) ∧
    (createFilesLoop [] ["source\\x"] fsD [] = .error (.fileNotFound, fsD, [])) :=
  ⟨(item_failure_propagates_and_halts [] "source\\replica" [] fsD [] .fileExists).1
      (by decide) rfl,
   (item_failure_propagates_and_halts [] "source\\x" [] fsD [] .fileNotFound).2
      (by decide) rfl⟩

/-- C3 amended.  The enumeration of a root is complete — every existing
directory under the root, empty or not, and every file under it appears —
but the recorded paths are relative to the process working directory (the
root's own relative path stays as a prefix), not relative to the root, and
the replica-side lists additionally have every occurrence of the substring
"replica" replaced by "source". -/
theorem enumeration_complete_relative_to_cwd :
    ∀ (fs : FS) (root : String),
      (∀ d, d ∈ src_folders fs root ↔ d ∈ fs.dirs ∧ underRoot root d = true) ∧
      (∀ p, p ∈ src_files fs root ↔
        ∃ d n t, (d, n, t) ∈ fs.files ∧ d ∈ fs.dirs ∧ underRoot root d = true ∧
          p = d ++ "\\" ++ n) ∧
      (∀ q, q ∈ rep_folders fs root ↔
        ∃ d, d ∈ fs.dirs ∧ underRoot root d = true ∧
          q = pyReplace d "replica" "source") ∧
      (∀ p, p ∈ rep_files fs root ↔
        ∃ d n t, (d, n, t) ∈ fs.files ∧ d ∈ fs.dirs ∧ underRoot root d = true ∧
          p = pyReplace (d ++ "\\" ++ n) "replica" "source") :=
  fun _ _ =>
    ⟨fun _ => mem_src_folders, fun _ => mem_src_files,
     fun _ => mem_rep_folders, fun _ => mem_rep_files⟩

/-- C10.  Every file discovered during enumeration is recorded under the
path built by joining the walked directory path to the file name with the
literal backslash character — whatever separators the directory strings
themselves contain — and the replica-side record is that same
backslash-joined path with the substring "replica" replaced by "source".
The copy, delete and timestamp operations of the cycle consume exactly
these recorded lists. -/
theorem file_paths_joined_with_literal_backslash :
    ∀ (fs : FS) (root d n : String) (t : Nat),
      (d, n, t) ∈ fs.files → d ∈ fs.dirs → underRoot root d = true →
      (d ++ "\\" ++ n) ∈ src_files fs root ∧
      (d ++ "\\" ++ n).toList = d.toList ++ '\\' :: n.toList ∧
      pyReplace (d ++ "\\" ++ n) "replica" "source" ∈ rep_files fs root := by
  intro fs root d n t hf hd hu
  refine ⟨mem_src_files.2 ⟨d, n, t, hf, hd, hu, rfl⟩, ?_,
    mem_rep_files.2 ⟨d, n, t, hf, hd, hu, rfl⟩⟩
  simp [String.toList, String.data_append]

/-- Witness for C10: the file `a` of `fsA` is recorded backslash-joined in
both enumerations. -/
theorem file_paths_joined_with_literal_backslash_w :
    ("source" ++ "\\" ++ "a") ∈ src_files fsA "source" ∧
    ("source" ++ "\\" ++ "a").toList = "source".toList ++ '\\' :: "a".toList ∧
    pyReplace ("source" ++ "\\" ++ "a") "replica" "source" ∈ rep_files fsA "source" :=
  file_paths_joined_with_literal_backslash fsA "source" "source" "a" 1
    (by decide) (by decide) (by decide)
